import Mathlib

/-!
Verification of the Aria agent runtime core (shallow embedding).

This file embeds, as executable Lean definitions, the three managers of the
agent runtime core:

* `src/agent/memory/session.py` — session conversation memory
  (`SessionMemory`, `Message`): bounded history, token-budgeted context
  window, summarization, JSON persistence;
* `src/agent/executor.py` — tool execution engine (`ToolExecutor`,
  `ToolResult`): argument validation, sliding-window rate limiting, error
  isolation, batch execution;
* `src/agent/android/adb_manager.py` — ADB device session manager
  (`ADBManager`, `DeviceInfo`): device listing/parsing and active-device
  selection.

Modelling conventions: Python floats used as wall-clock timestamps are
modelled as `Rat` and every call to `time.time()` is an explicit `now`
parameter; file contents are passed as values (saving produces the JSON
object, loading consumes one); exceptions raised by a tool are an explicit
`Outcome` value; wall-clock durations (`duration_ms`) are not modelled and
are set to `0`.  Token counting models the deterministic character-based
fallback (`max(1, len(text) // 4)`) used when tiktoken is unavailable.
-/

namespace Aria

/-! ## Session memory (src/agent/memory/session.py) -/

/-- A single conversation message (`Message` dataclass): role, content,
timestamp and the token count cached at insertion. -/
structure Message where
  role : String
  content : String
  timestamp : Rat
  tokens : Nat
deriving Repr, DecidableEq

/-- `Message.to_dict`: the LLM-compatible projection, keeping only role and
content. -/
structure MsgDict where
  role : String
  content : String
deriving Repr, DecidableEq

def Message.to_dict (m : Message) : MsgDict :=
  { role := m.role, content := m.content }

/-- `SessionMemory._count_tokens`, character-based fallback branch:
`max(1, len(text) // 4)`.  Python `len` counts code points, as does
`String.data.length`. -/
def countTokens (text : String) : Nat :=
  max 1 (text.data.length / 4)

/-- Python slicing `s[:n]` on a `str` (a sequence of code points). -/
def pyTake (s : String) (n : Nat) : String :=
  String.mk (s.data.take n)

/-- The session memory state: the `max_history` cap and the ordered message
list (oldest first). -/
structure SessionMemory where
  max_history : Nat
  messages : List Message
deriving Repr, DecidableEq

/-- `SessionMemory.add_message`: append a message with a cached token count,
then trim from the front when the cap is exceeded
(`self._messages = self._messages[overflow:]`). -/
def SessionMemory.add_message (mem : SessionMemory) (role content : String)
    (now : Rat) : SessionMemory :=
  let msg : Message := ⟨role, content, now, countTokens content⟩
  let msgs := mem.messages ++ [msg]
  if mem.max_history < msgs.length then
    { mem with messages := msgs.drop (msgs.length - mem.max_history) }
  else
    { mem with messages := msgs }

/-- `SessionMemory.clear`: drop all messages. -/
def SessionMemory.clear (mem : SessionMemory) : SessionMemory :=
  { mem with messages := [] }

/-- The token cost the context-window scan charges a message:
`msg.tokens or self._count_tokens(msg.content)` (a cached `0` is falsy in
Python, so it is recomputed). -/
def Message.effTokens (m : Message) : Nat :=
  if m.tokens = 0 then countTokens m.content else m.tokens

/-- The scan loop of `get_context_window`: walks the reversed message list
(newest first), accumulating token cost into `used` and collecting the
selection `sel` (kept in chronological order by prepending); stops when a
message would push `used` over the budget and the selection is non-empty. -/
def cwLoop (maxT : Nat) : List Message → Nat → List Message → List Message
  | [], _, sel => sel
  | m :: rest, used, sel =>
    if maxT < used + m.effTokens ∧ sel ≠ [] then sel
    else cwLoop maxT rest (used + m.effTokens) (m :: sel)

/-- `SessionMemory.get_context_window` selection (the `Message` list before
the `to_dict` projection). -/
def SessionMemory.contextSelection (mem : SessionMemory) (maxT : Nat) :
    List Message :=
  cwLoop maxT mem.messages.reverse 0 []

/-- `SessionMemory.get_context_window`: the selection projected to
role/content dicts. -/
def SessionMemory.get_context_window (mem : SessionMemory) (maxT : Nat) :
    List MsgDict :=
  (mem.contextSelection maxT).map Message.to_dict

/-- The per-collapsed-turn line of `summarize`'s digest:
`f"  {role_label}: {snippet}"` with `snippet = msg.content[:100] + ("…" if
len(msg.content) > 100 else "")` and `role_label = "User" if role == "user"
else "Aria"`. -/
def summaryLine (m : Message) : String :=
  let roleLabel := if m.role = "user" then "User" else "Aria"
  let snippet := pyTake m.content 100 ++
    (if 100 < m.content.data.length then "…" else "")
  "  " ++ roleLabel ++ ": " ++ snippet

/-- The digest text `summarize` builds from the collapsed (older) turns:
a header line followed by one line per collapsed turn, joined by. -/
def summaryText (older : List Message) : String :=
  String.intercalate "\n"
    (("[Conversation summary — " ++ toString older.length ++
      " earlier messages]") :: older.map summaryLine)

/-- `SessionMemory.summarize`: no-op returning `""` when at most 10 turns are
stored; otherwise collapse all but the 10 most recent turns into one
synthetic system turn and return the digest text. -/
def SessionMemory.summarize (mem : SessionMemory) (now : Rat) :
    String × SessionMemory :=
  let keep_recent := 10
  if mem.messages.length ≤ keep_recent then ("", mem)
  else
    let older := mem.messages.take (mem.messages.length - keep_recent)
    let recent := mem.messages.drop (mem.messages.length - keep_recent)
    let text := summaryText older
    let summary_msg : Message := ⟨"system", text, now, countTokens text⟩
    (text, { mem with messages := summary_msg :: recent })

/-- One message record of a persisted session file; `timestamp` and `tokens`
are read with `dict.get` defaults (`0.0` / `0`) by `load`, so they are
optional here.  (`role` and `content` are accessed unconditionally.) -/
structure SavedMessage where
  role : String
  content : String
  timestamp : Option Rat
  tokens : Option Nat
deriving Repr, DecidableEq

/-- A persisted session file (the JSON object): `load` requires the
`messages` key and reads `max_history` with a default; `version` and
`saved_at` are written by `save` but ignored by `load`. -/
structure SessionFile where
  version : Option Nat
  saved_at : Option Rat
  max_history : Option Nat
  messages : Option (List SavedMessage)
deriving Repr, DecidableEq

/-- `SessionMemory.save`: the JSON object written to disk
(`{"version": 1, "saved_at": now, "max_history": ..., "messages":
[m.to_full_dict() ...]}`). -/
def SessionMemory.save (mem : SessionMemory) (now : Rat) : SessionFile :=
  { version := some 1
    saved_at := some now
    max_history := some mem.max_history
    messages := some (mem.messages.map fun m =>
      { role := m.role, content := m.content,
        timestamp := some m.timestamp, tokens := some m.tokens }) }

/-- `SessionMemory.load`: replaces the message list with the file's messages
(missing `timestamp`/`tokens` default to `0`) and `max_history` with the
file's value when present; a file without a `messages` key raises
`ValueError` (modelled as `Except.error`).  Note: no trimming to
`max_history` is performed. -/
def SessionMemory.load (mem : SessionMemory) (file : SessionFile) :
    Except String SessionMemory :=
  match file.messages with
  | none => Except.error "Invalid session file format"
  | some ms => Except.ok
      { max_history := file.max_history.getD mem.max_history
        messages := ms.map fun m =>
          ⟨m.role, m.content, m.timestamp.getD 0, m.tokens.getD 0⟩ }

/-! ## Tool executor (src/agent/executor.py) -/

/-- The repository's attribute-style tool call (the `ToolCall` dataclass of
`src/agent/llm/client.py`: `.name`, `.arguments` dict, `.call_id` with
default `""`); also the triple of values `execute` works with after its
field extraction.  Argument values are modelled as `Option String`: `none`
is Python `None`, `some s` any non-None value (payloads are opaque to the
dispatcher). -/
structure ToolCall where
  name : String
  arguments : List (String × Option String)
  call_id : String
deriving Repr, DecidableEq

/-- A duck-typed call object as `execute` receives it: either the
attribute-style `ToolCall` dataclass or a mapping whose keys may be
absent. -/
inductive CallObject where
  | attr (tc : ToolCall)
  | dict (name : Option String)
      (arguments : Option (List (String × Option String)))
      (call_id : Option String)

/-- The `AttributeError` escaping `execute`/`validate_args` when a falsy
attribute value makes `getattr(...) or tool_call.get(...)` fall through to
`.get` on an object that has no such method. -/
def attrError : String :=
  "AttributeError: \x27ToolCall\x27 object has no attribute \x27get\x27"

/-- The field extraction at the top of `execute` (executor.py lines
113-115): `getattr(tool_call, f, default) or tool_call.get(f, default)`.
For the attribute-style dataclass a falsy field value (`name == ""`,
`arguments == {}`, `call_id == ""`) falls through to `.get`, which raises
`AttributeError`; for a mapping the attributes are absent and `.get`
supplies the defaults (`"unknown"`, `{}`, `""`). -/
def extractCall : CallObject → Except String ToolCall
  | CallObject.attr tc =>
    if tc.name = "" then Except.error attrError
    else if tc.arguments = [] then Except.error attrError
    else if tc.call_id = "" then Except.error attrError
    else Except.ok tc
  | CallObject.dict n a cid =>
    Except.ok ⟨n.getD "unknown", a.getD [], cid.getD ""⟩

/-- The outcome of running a tool's own `execute`: a returned value
(possibly `None`), a raised `TypeError` (caught as
`"Bad arguments for <name>: ..."`), or any other raised exception (caught
as `"<type>: <message>"`). -/
inductive Outcome where
  | ok (value : Option String)
  | typeError (msg : String)
  | exn (etype : String) (msg : String)

/-- A registered tool: its `input_schema["required"]` field list and its
`execute` behaviour on an argument dict. -/
structure Tool where
  required : List String
  behavior : List (String × Option String) → Outcome

/-- `ToolResult`: the dataclass returned for every completed tool call.
`duration_ms` is wall-clock time, not modelled (always `0` here). -/
structure ToolResult where
  tool_name : String
  result : Option String
  error : Option String
  duration_ms : Rat
  call_id : String
deriving Repr, DecidableEq

/-- `ToolResult.succeeded`: `self.error is None`. -/
def ToolResult.succeeded (r : ToolResult) : Bool :=
  r.error.isNone

/-- The executor state: the injected registry (dict or `.get` object, both
modelled as a partial map), the per-minute rate limit, and the per-tool
call log (`defaultdict` of timestamp deques, oldest first). -/
structure ExecState where
  registry : String → Option Tool
  rateLimit : Nat
  callLog : String → List Rat

/-- The required-fields check inside `ToolExecutor.validate_args`
(executor.py lines 222-244), on already-extracted name and arguments:
unknown tools validate trivially; otherwise every field in the schema's
`required` list must be present and not `None`.  (The
`arguments`-is-not-a-dict rejection is unrepresentable here since
arguments are typed as a dict.) -/
def checkRequired (st : ExecState) (name : String)
    (args : List (String × Option String)) : Bool :=
  match st.registry name with
  | none => true
  | some tool => tool.required.all fun f =>
      match args.lookup f with
      | none => false
      | some none => false
      | some (some _) => true

/-- The name `validate_args`'s own extraction produces (executor.py line
219: mapping default `""`, unlike `execute`'s `"unknown"`). -/
def validationName : CallObject → String
  | CallObject.attr tc => tc.name
  | CallObject.dict n _ _ => n.getD ""

/-- `ToolExecutor.validate_args` on the raw call object: it re-extracts
name and arguments (executor.py lines 219-220) with the same falsy-`or`
pattern as `execute`, so it too raises `AttributeError` for an
attribute-style call with a falsy name or arguments dict. -/
def validate_args (st : ExecState) (c : CallObject) : Except String Bool :=
  match c with
  | CallObject.attr tc =>
    if tc.name = "" then Except.error attrError
    else if tc.arguments = [] then Except.error attrError
    else Except.ok (checkRequired st tc.name tc.arguments)
  | CallObject.dict n a _ =>
    Except.ok (checkRequired st (n.getD "") (a.getD []))

/-- The lazy eviction in `_rate_limit_ok`: pop from the front while the
timestamp is older than `now - 60`. -/
def evictLog (l : List Rat) (now : Rat) : List Rat :=
  l.dropWhile fun t => decide (t < now - 60)

/-- Point update of the per-tool call log. -/
def setLog (log : String → List Rat) (n : String) (l : List Rat) :
    String → List Rat :=
  fun m => if m = n then l else log m

/-- The rate-limit rejection message of `ToolExecutor.execute`. -/
def rateMsg (name : String) (limit : Nat) : String :=
  "Rate limit exceeded for tool \x27" ++ name ++ "\x27 — max " ++
    toString limit ++ "/min"

/-- The `try`/`except` block of `ToolExecutor.execute` around the tool's
own `execute`: a normal return becomes a success result, a raised
`TypeError` becomes the `"Bad arguments for <name>: ..."` error result,
and any other exception becomes the `"<type>: <message>"` error result. -/
def runOutcome (name cid : String) (o : Outcome) : ToolResult :=
  match o with
  | Outcome.ok v => ⟨name, v, none, 0, cid⟩
  | Outcome.typeError m =>
    ⟨name, none, some ("Bad arguments for " ++ name ++ ": " ++ m), 0, cid⟩
  | Outcome.exn ty m => ⟨name, none, some (ty ++ ": " ++ m), 0, cid⟩

/-- The admission-and-run tail of `ToolExecutor.execute` (executor.py
lines 126-186), reached when validation passed: evict-and-check the rate
window, look the tool up, record the call timestamp, then run the tool,
converting a raised exception into an error `ToolResult`.  The two
`time.time()` reads (rate check and recording) are modelled by the single
`now` parameter. -/
def admitCall (st : ExecState) (tc : ToolCall) (now : Rat) :
    ToolResult × ExecState :=
  let evicted := evictLog (st.callLog tc.name) now
  let st1 : ExecState := { st with callLog := setLog st.callLog tc.name evicted }
  if st.rateLimit ≤ evicted.length then
    (⟨tc.name, none, some (rateMsg tc.name st.rateLimit), 0, tc.call_id⟩, st1)
  else
    match st.registry tc.name with
    | none =>
      (⟨tc.name, none, some ("Unknown tool: \x27" ++ tc.name ++ "\x27"),
        0, tc.call_id⟩, st1)
    | some tool =>
      let st2 : ExecState :=
        { st1 with callLog := setLog st1.callLog tc.name (evicted ++ [now]) }
      (runOutcome tc.name tc.call_id (tool.behavior tc.arguments), st2)

/-- `ToolExecutor.execute` on the raw call object: field extraction (which
raises `AttributeError` for the repo's dataclass with a falsy field, before
and outside the `try` block), then `validate_args(tool_call)` on the raw
object, then the admission-and-run tail on the extracted fields.
`Except.error` models an exception escaping the dispatcher to its
caller. -/
def execute (st : ExecState) (c : CallObject) (now : Rat) :
    Except String (ToolResult × ExecState) :=
  match extractCall c with
  | Except.error e => Except.error e
  | Except.ok tc =>
    match validate_args st c with
    | Except.error e => Except.error e
    | Except.ok false =>
      Except.ok (⟨tc.name, none,
        some ("Invalid arguments for tool \x27" ++ tc.name ++ "\x27"),
        0, tc.call_id⟩, st)
    | Except.ok true => Except.ok (admitCall st tc now)

/-- The result-state pair of a call whose extraction succeeded (the
`Except.ok` payload of `execute`). -/
def execOk (st : ExecState) (c : CallObject) (tc : ToolCall) (now : Rat) :
    ToolResult × ExecState :=
  match validate_args st c with
  | Except.ok true => admitCall st tc now
  | _ =>
    (⟨tc.name, none,
      some ("Invalid arguments for tool \x27" ++ tc.name ++ "\x27"),
      0, tc.call_id⟩, st)

/-- `ToolExecutor.execute_batch`: `asyncio.gather` with
`return_exceptions=False` over `execute` tasks created in input order.  The
event loop runs each task's synchronous prefix (extraction, validation,
rate check, recording) in creation order, so the shared call log is
threaded through the calls in order and results keep input order; a raised
exception (here: the extraction `AttributeError`) propagates out of
`execute_batch`, and the caller sees no result list. -/
def execute_batch (st : ExecState) (cs : List CallObject) (now : Rat) :
    Except String (List ToolResult × ExecState) :=
  match cs with
  | [] => Except.ok ([], st)
  | c :: rest =>
    match execute st c now with
    | Except.error e => Except.error e
    | Except.ok (r, st1) =>
      match execute_batch st1 rest now with
      | Except.error e => Except.error e
      | Except.ok (rs, st2) => Except.ok (r :: rs, st2)

/-- Replace the behaviour of the tool registered under `n` (schema and
registration unchanged): used to state that a rejected call never invokes
the tool — the dispatch result does not depend on the tool's behaviour. -/
def setBehavior (st : ExecState) (n : String)
    (b : List (String × Option String) → Outcome) : ExecState :=
  { st with registry := fun m =>
      if m = n then (st.registry m).map fun t => { t with behavior := b }
      else st.registry m }

/-! ## ADB device manager (src/agent/android/adb_manager.py) -/

/-- `DeviceInfo`: metadata about a device parsed from one line of
`adb devices -l` output, possibly enriched. -/
structure DeviceInfo where
  serial : String
  model : String
  android_version : String
  is_authorized : Bool
  is_online : Bool
  manufacturer : String
  sdk_version : String
deriving Repr, DecidableEq

/-- Python `str.strip()` on a code-point list: drop leading and trailing
whitespace. -/
def pyStrip (l : List Char) : List Char :=
  ((l.dropWhile Char.isWhitespace).reverse.dropWhile Char.isWhitespace).reverse

/-- Python `str.splitlines()` on newline-separated text (the form
`adb devices -l` emits): split on `\n`. -/
def splitNl : List Char → List (List Char)
  | [] => [[]]
  | c :: rest =>
    if c = '\n' then [] :: splitNl rest
    else
      match splitNl rest with
      | [] => [[c]]
      | h :: t => (c :: h) :: t

/-- The accumulator loop of Python `str.split()` (no separator): split on
whitespace runs, discarding empty fields. -/
def splitWsAux : List Char → List Char → List (List Char)
  | [], acc => if acc.isEmpty then [] else [acc.reverse]
  | c :: rest, acc =>
    if c.isWhitespace then
      if acc.isEmpty then splitWsAux rest []
      else acc.reverse :: splitWsAux rest []
    else splitWsAux rest (c :: acc)

/-- Python `str.split()` with no argument. -/
def splitWs (l : List Char) : List (List Char) :=
  splitWsAux l []

/-- Parse one body line of `adb devices -l`: strip, skip empties, split on
whitespace, require at least two fields (serial and status token). -/
def parseLine (line : List Char) : Option (String × String) :=
  let l := pyStrip line
  if l.isEmpty then none
  else
    match splitWs l with
    | serial :: status :: _ => some (String.mk serial, String.mk status)
    | _ => none

/-- The `DeviceInfo` built by `list_devices` before enrichment: both
`is_online` and `is_authorized` are `status == "device"`; other fields keep
their dataclass defaults. -/
def mkDeviceInfo (serial status : String) : DeviceInfo :=
  { serial := serial
    model := "unknown"
    android_version := "unknown"
    is_authorized := status == "device"
    is_online := status == "device"
    manufacturer := "unknown"
    sdk_version := "unknown" }

/-- `_enrich_device_info`: fill model/version/manufacturer/sdk from the
device property query; `none` models the query raising (the exception is
caught and the info returned unchanged). -/
def enrich (info : DeviceInfo) (props : Option (String → Option String)) :
    DeviceInfo :=
  match props with
  | none => info
  | some p =>
    { info with
        model := (p "model").getD "unknown"
        android_version := (p "android_version").getD "unknown"
        manufacturer := (p "manufacturer").getD "unknown"
        sdk_version := (p "sdk_version").getD "unknown" }

/-- `ADBManager.list_devices` as a function of the discovery command's
stdout and a property oracle per serial: skip the header line, parse each
remaining line, and enrich online devices. -/
def list_devices (stdout : String)
    (props : String → Option (String → Option String)) : List DeviceInfo :=
  ((splitNl (pyStrip stdout.data)).drop 1).filterMap fun line =>
    match parseLine line with
    | none => none
    | some (serial, status) =>
      let info := mkDeviceInfo serial status
      some (if info.is_online then enrich info (props serial) else info)

/-- An `ADBBridge` handle, identified by the serial it is bound to. -/
structure Bridge where
  device_serial : String
deriving Repr, DecidableEq

/-- The manager's session state: the active serial and the cached bridge. -/
structure MgrState where
  active_serial : Option String
  bridge : Option Bridge
deriving Repr, DecidableEq

/-- The `NoDeviceError` message raised by `get_device`. -/
def noDeviceMsg : String :=
  "No authorized Android device connected. Connect a device with USB debugging enabled or run: adb connect <ip>"

/-- The cached-path test of `get_device`: `self._bridge and
self._active_serial` both present and the freshly constructed bridge's
device still answers as connected. -/
def cachedOk (st : MgrState) (connected : String → Bool) : Bool :=
  match st.bridge, st.active_serial with
  | some _, some s => connected s
  | _, _ => false

/-- `ADBManager.get_device` as a function of the session state, a
connectivity oracle (`is_device_connected` per serial) and the freshly
listed devices: return a handle for the active serial when a cached bridge
exists and the device still answers; otherwise select among
authorized-online devices, preferring the previously active serial, caching
the choice; raise `NoDeviceError` (the `Except.error`) when none is
eligible. -/
def get_device (st : MgrState) (connected : String → Bool)
    (devices : List DeviceInfo) : Except String (Bridge × MgrState) :=
  let cachedPath : Option Bridge :=
    match st.bridge, st.active_serial with
    | some _, some s => if connected s then some ⟨s⟩ else none
    | _, _ => none
  match cachedPath with
  | some b => Except.ok (b, st)
  | none =>
    let authorized : List DeviceInfo :=
      devices.filter fun d => d.is_authorized && d.is_online
    match authorized with
    | [] => Except.error noDeviceMsg
    | d0 :: _ =>
      let device :=
        match st.active_serial with
        | some s =>
          match authorized.find? (fun (d : DeviceInfo) => d.serial == s) with
          | some d => d
          | none => d0
        | none => d0
      Except.ok (⟨device.serial⟩,
        { active_serial := some device.serial, bridge := some ⟨device.serial⟩ })

/-! ## Measures and concrete instances used in the statements below -/

/-- Total token cost the context-window scan charges to a message list. -/
def tokSum (l : List Message) : Nat :=
  (l.map Message.effTokens).sum

/-- Add a sequence of user messages in order (timestamps fixed at 0): the
test-scenario composition of `add_message`. -/
def addMsgs (mem : SessionMemory) (contents : List String) : SessionMemory :=
  contents.foldl (fun m c => m.add_message "user" c 0) mem

/-- A sample user message with an explicit cached token count. -/
def wMsg (c : String) (tk : Nat) : Message :=
  ⟨"user", c, 0, tk⟩

/-- A well-formed session file holding five messages but a `max_history` of
4: `load` accepts it and installs all five turns. -/
def c3File : SessionFile :=
  { version := some 1, saved_at := some 0, max_history := some 4,
    messages := some
      [⟨"user", "a", none, none⟩, ⟨"user", "b", none, none⟩,
       ⟨"user", "c", none, none⟩, ⟨"user", "d", none, none⟩,
       ⟨"user", "e", none, none⟩] }

/-- The memory state `load` produces from `c3File`. -/
def c3Loaded : SessionMemory :=
  ⟨4, [⟨"user", "a", 0, 0⟩, ⟨"user", "b", 0, 0⟩, ⟨"user", "c", 0, 0⟩,
       ⟨"user", "d", 0, 0⟩, ⟨"user", "e", 0, 0⟩]⟩

/-- A message whose content is 150 characters long: its digest line in
`summarize` exceeds 100 characters. -/
def c8Msg : Message :=
  ⟨"user", String.mk (List.replicate 150 'a'), 0, 10⟩

/-- An 11-message memory: `summarize` collapses exactly `c8Msg`. -/
def c8Mem : SessionMemory :=
  ⟨100, c8Msg :: (List.range 10).map fun i => wMsg (toString i) 1⟩

/-- The digest header for one collapsed message. -/
def c8Header : String :=
  "[Conversation summary — 1 earlier messages]"

/-- A sample tool requiring a `text` argument and echoing it back. -/
def echoTool : Tool :=
  ⟨["text"], fun args => Outcome.ok ((args.lookup "text").getD none)⟩

/-- A sample tool that always raises. -/
def failTool : Tool :=
  ⟨[], fun _ => Outcome.exn "RuntimeError" "boom"⟩

/-- A sample registry holding `echo` and `fail`. -/
def wReg : String → Option Tool :=
  fun n => if n = "echo" then some echoTool
    else if n = "fail" then some failTool else none

/-- A fresh executor over `wReg`, rate limit 2/min, empty call log. -/
def wSt : ExecState :=
  ⟨wReg, 2, fun _ => []⟩

/-- An executor whose `echo` window already holds 2 recorded calls. -/
def wStBusy : ExecState :=
  ⟨wReg, 2, fun n => if n = "echo" then [0, 10] else []⟩

def wCall : ToolCall := ⟨"echo", [("text", some "hi")], "c1"⟩

def wCallMissing : ToolCall := ⟨"echo", [], "c2"⟩

def wCallNull : ToolCall := ⟨"echo", [("text", none)], "c2n"⟩

def wCallFail : ToolCall := ⟨"fail", [("x", some "1")], "cf"⟩

def wCallUnknown : ToolCall := ⟨"nope", [("a", some "b")], "cu"⟩

/-- An attribute-style call left with the dataclass default `call_id = ""`:
its field extraction raises. -/
def wCallNoId : ToolCall := ⟨"echo", [("text", some "hi")], ""⟩

/-- The spec's weather tool: requires `location`. -/
def weatherTool : Tool := ⟨["location"], fun _ => Outcome.ok none⟩

/-- An executor whose registry holds only `weather`. -/
def wWeatherSt : ExecState :=
  ⟨fun n => if n = "weather" then some weatherTool else none, 30, fun _ => []⟩

/-- A crash-free 3-call batch whose middle call's tool always raises. -/
def wBatch : List CallObject :=
  [CallObject.attr wCall, CallObject.attr wCallFail, CallObject.attr wCall]

/-- A batch whose middle call is the repo's dataclass with empty
arguments: its extraction raises and the whole batch propagates it. -/
def wBatchCrash : List CallObject :=
  [CallObject.attr wCall, CallObject.attr wCallMissing, CallObject.attr wCall]

/-- Sample `adb devices -l` output: one authorized-online device, one
unauthorized device. -/
def wStdout : String :=
  "List of devices attached\nserialA\tdevice\nserialB\tunauthorized"

/-- An eligible (authorized and online) sample device. -/
def devA : DeviceInfo :=
  ⟨"serialA", "unknown", "unknown", true, true, "unknown", "unknown"⟩

/-- A second eligible sample device. -/
def devB : DeviceInfo :=
  ⟨"serialB", "unknown", "unknown", true, true, "unknown", "unknown"⟩

/-- A replacement behaviour that always succeeds, for isolation witnesses. -/
def wOkBehavior : List (String × Option String) → Outcome :=
  fun _ => Outcome.ok none

/-- A small memory for context-window witnesses. -/
def wMemB : SessionMemory :=
  ⟨100, [wMsg "a" 5, wMsg "b" 3, wMsg "c" 4]⟩

/-! ## Dispatcher lemmas: extraction and the branches of `execute` -/

theorem setLog_setLog (log : String → List Rat) (n : String) (a b : List Rat) :
    setLog (setLog log n a) n b = setLog log n b := by
  funext m
  by_cases h : m = n <;> simp [setLog, h]

theorem extractCall_attr_inv (tc0 tc : ToolCall)
    (h : extractCall (CallObject.attr tc0) = Except.ok tc) :
    tc = tc0 ∧ tc0.name ≠ "" ∧ tc0.arguments ≠ [] ∧ tc0.call_id ≠ "" := by
  by_cases h1 : tc0.name = ""
  · simp [extractCall, h1] at h
  · by_cases h2 : tc0.arguments = []
    · simp [extractCall, h1, h2] at h
    · by_cases h3 : tc0.call_id = ""
      · simp [extractCall, h1, h2, h3] at h
      · refine ⟨?_, h1, h2, h3⟩
        simpa [extractCall, h1, h2, h3] using h.symm

theorem extractCall_dict (n : Option String)
    (a : Option (List (String × Option String))) (cid : Option String) :
    extractCall (CallObject.dict n a cid) =
      Except.ok ⟨n.getD "unknown", a.getD [], cid.getD ""⟩ := rfl

theorem extractCall_error (c : CallObject) (e : String)
    (h : extractCall c = Except.error e) :
    e = attrError ∧ ∃ tc, c = CallObject.attr tc ∧
      (tc.name = "" ∨ tc.arguments = [] ∨ tc.call_id = "") := by
  cases c with
  | attr tc =>
    by_cases h1 : tc.name = ""
    · exact ⟨(show attrError = e by simpa [extractCall, h1] using h).symm,
        tc, rfl, Or.inl h1⟩
    · by_cases h2 : tc.arguments = []
      · exact ⟨(show attrError = e by simpa [extractCall, h1, h2] using h).symm,
          tc, rfl, Or.inr (Or.inl h2)⟩
      · by_cases h3 : tc.call_id = ""
        · exact ⟨(show attrError = e by
              simpa [extractCall, h1, h2, h3] using h).symm,
            tc, rfl, Or.inr (Or.inr h3)⟩
        · simp [extractCall, h1, h2, h3] at h
  | dict n a cid => simp [extractCall] at h

theorem extractCall_attr_crash (tc : ToolCall)
    (h : tc.name = "" ∨ tc.arguments = [] ∨ tc.call_id = "") :
    extractCall (CallObject.attr tc) = Except.error attrError := by
  rcases h with h | h | h
  · simp [extractCall, h]
  · by_cases h1 : tc.name = "" <;> simp [extractCall, h1, h]
  · by_cases h1 : tc.name = ""
    · simp [extractCall, h1]
    · by_cases h2 : tc.arguments = [] <;> simp [extractCall, h1, h2, h]

theorem validate_args_of_extract (st : ExecState) (c : CallObject)
    (tc : ToolCall) (h : extractCall c = Except.ok tc) :
    validate_args st c =
      Except.ok (checkRequired st (validationName c) tc.arguments) := by
  cases c with
  | attr tc0 =>
    obtain ⟨rfl, h1, h2, h3⟩ := extractCall_attr_inv tc0 tc h
    simp [validate_args, validationName, h1, h2]
  | dict n a cid =>
    obtain rfl : tc = ⟨n.getD "unknown", a.getD [], cid.getD ""⟩ := by
      simpa [extractCall] using h.symm
    rfl

theorem execute_extract_ok (st : ExecState) (c : CallObject) (tc : ToolCall)
    (now : Rat) (h : extractCall c = Except.ok tc) :
    execute st c now = Except.ok (execOk st c tc now) := by
  have hv := validate_args_of_extract st c tc h
  cases hcr : checkRequired st (validationName c) tc.arguments with
  | false =>
    rw [hcr] at hv
    simp [execute, execOk, h, hv]
  | true =>
    rw [hcr] at hv
    simp [execute, execOk, h, hv]

theorem admitCall_of_rate (st : ExecState) (tc : ToolCall) (now : Rat)
    (h : st.rateLimit ≤ (evictLog (st.callLog tc.name) now).length) :
    admitCall st tc now =
      (⟨tc.name, none, some (rateMsg tc.name st.rateLimit), 0, tc.call_id⟩,
       { st with callLog := setLog st.callLog tc.name (evictLog (st.callLog tc.name) now) }) := by
  simp [admitCall, h]

theorem admitCall_of_unknown (st : ExecState) (tc : ToolCall) (now : Rat)
    (h2 : (evictLog (st.callLog tc.name) now).length < st.rateLimit)
    (h3 : st.registry tc.name = none) :
    admitCall st tc now =
      (⟨tc.name, none, some ("Unknown tool: \x27" ++ tc.name ++ "\x27"),
        0, tc.call_id⟩,
       { st with callLog := setLog st.callLog tc.name (evictLog (st.callLog tc.name) now) }) := by
  have h2' : ¬ st.rateLimit ≤ (evictLog (st.callLog tc.name) now).length :=
    Nat.not_le.mpr h2
  simp [admitCall, h2', h3]

theorem admitCall_of_run (st : ExecState) (tc : ToolCall) (now : Rat) (tool : Tool)
    (h2 : (evictLog (st.callLog tc.name) now).length < st.rateLimit)
    (h3 : st.registry tc.name = some tool) :
    admitCall st tc now =
      (runOutcome tc.name tc.call_id (tool.behavior tc.arguments),
       { st with callLog := setLog st.callLog tc.name (evictLog (st.callLog tc.name) now ++ [now]) }) := by
  have h2' : ¬ st.rateLimit ≤ (evictLog (st.callLog tc.name) now).length :=
    Nat.not_le.mpr h2
  simp [admitCall, h2', h3, setLog_setLog]

theorem runOutcome_error_none (name cid : String) (o : Outcome) :
    (runOutcome name cid o).error = none ↔ ∃ v, o = Outcome.ok v := by
  cases o <;> simp [runOutcome]

theorem execOk_valid (st : ExecState) (c : CallObject) (tc : ToolCall)
    (now : Rat) (h : validate_args st c = Except.ok true) :
    execOk st c tc now = admitCall st tc now := by
  simp [execOk, h]

theorem execOk_invalid (st : ExecState) (c : CallObject) (tc : ToolCall)
    (now : Rat) (h : validate_args st c = Except.ok false) :
    execOk st c tc now =
      (⟨tc.name, none,
        some ("Invalid arguments for tool \x27" ++ tc.name ++ "\x27"),
        0, tc.call_id⟩, st) := by
  simp [execOk, h]

/-- C1 counterexample: `execute` raises `AttributeError` to its caller —
rather than returning a `ToolResult` — for the repository's
attribute-style `ToolCall` dataclass (src/agent/llm/client.py) when
`arguments` is the empty dict or `call_id` keeps its dataclass default
`""`: the falsy-`or` extraction at executor.py lines 113-115 calls `.get`
on an object without it, outside the `try` block. -/
theorem C1_counterexample :
    execute wSt (CallObject.attr wCallMissing) 0 = Except.error attrError
    ∧ execute wSt (CallObject.attr wCallNoId) 0 = Except.error attrError :=
  ⟨rfl, rfl⟩

/-- C1 amended: `execute` raises (an `AttributeError` escaping to its
caller) exactly for attribute-style calls with a falsy name, arguments
dict, or call_id; for every other ToolCall — every mapping-style call and
every attribute-style call with all three fields non-falsy — it returns
exactly one `ToolResult`: a validation failure, a rate-limit rejection, an
unknown tool name, and any exception raised by the tool's own execute are
each converted into a result whose error field is set (with the code's
message), `succeeded` holds iff `error` is absent, and `error = none`
exactly when the call was admitted and the tool returned normally. -/
theorem C1_amended_dispatcher (st : ExecState) (c : CallObject) (now : Rat) :
    ((∃ e, execute st c now = Except.error e) ↔
      ∃ tc, c = CallObject.attr tc ∧
        (tc.name = "" ∨ tc.arguments = [] ∨ tc.call_id = ""))
    ∧ (∀ e, execute st c now = Except.error e → e = attrError)
    ∧ (∀ tc, extractCall c = Except.ok tc →
        execute st c now = Except.ok (execOk st c tc now)
        ∧ ((execOk st c tc now).1.succeeded = true ↔
            (execOk st c tc now).1.error = none)
        ∧ (validate_args st c = Except.ok false →
            (execOk st c tc now).1.error =
              some ("Invalid arguments for tool \x27" ++ tc.name ++ "\x27")
            ∧ (execOk st c tc now).2 = st)
        ∧ (validate_args st c = Except.ok true →
            st.rateLimit ≤ (evictLog (st.callLog tc.name) now).length →
            (execOk st c tc now).1.error = some (rateMsg tc.name st.rateLimit))
        ∧ (validate_args st c = Except.ok true →
            (evictLog (st.callLog tc.name) now).length < st.rateLimit →
            st.registry tc.name = none →
            (execOk st c tc now).1.error =
              some ("Unknown tool: \x27" ++ tc.name ++ "\x27"))
        ∧ (∀ tool ty m, validate_args st c = Except.ok true →
            (evictLog (st.callLog tc.name) now).length < st.rateLimit →
            st.registry tc.name = some tool →
            tool.behavior tc.arguments = Outcome.exn ty m →
            (execOk st c tc now).1.error = some (ty ++ ": " ++ m))
        ∧ (∀ tool m, validate_args st c = Except.ok true →
            (evictLog (st.callLog tc.name) now).length < st.rateLimit →
            st.registry tc.name = some tool →
            tool.behavior tc.arguments = Outcome.typeError m →
            (execOk st c tc now).1.error =
              some ("Bad arguments for " ++ tc.name ++ ": " ++ m))
        ∧ ((execOk st c tc now).1.error = none ↔
            ∃ tool v, validate_args st c = Except.ok true ∧
              (evictLog (st.callLog tc.name) now).length < st.rateLimit ∧
              st.registry tc.name = some tool ∧
              tool.behavior tc.arguments = Outcome.ok v)) := by
  refine ⟨⟨?_, ?_⟩, ?_, ?_⟩
  · rintro ⟨e, he⟩
    cases hx : extractCall c with
    | error e2 =>
      obtain ⟨-, tc, hc, hcond⟩ := extractCall_error c e2 hx
      exact ⟨tc, hc, hcond⟩
    | ok tc =>
      rw [execute_extract_ok st c tc now hx] at he
      simp at he
  · rintro ⟨tc, rfl, hcond⟩
    exact ⟨attrError, by simp [execute, extractCall_attr_crash tc hcond]⟩
  · intro e he
    cases hx : extractCall c with
    | error e2 =>
      have hee : execute st c now = Except.error e2 := by simp [execute, hx]
      rw [hee] at he
      have heq : e2 = e := by simpa using he
      rw [← heq]
      exact (extractCall_error c e2 hx).1
    | ok tc =>
      rw [execute_extract_ok st c tc now hx] at he
      simp at he
  · intro tc hx
    have hv := validate_args_of_extract st c tc hx
    refine ⟨execute_extract_ok st c tc now hx,
      by simp [ToolResult.succeeded, Option.isNone_iff_eq_none],
      ?_, ?_, ?_, ?_, ?_, ?_⟩
    · intro hvf
      rw [execOk_invalid st c tc now hvf]
      exact ⟨rfl, rfl⟩
    · intro hvt hrate
      rw [execOk_valid st c tc now hvt, admitCall_of_rate st tc now hrate]
    · intro hvt hlt hreg
      rw [execOk_valid st c tc now hvt, admitCall_of_unknown st tc now hlt hreg]
    · intro tool ty m hvt hlt hreg hb
      rw [execOk_valid st c tc now hvt, admitCall_of_run st tc now tool hlt hreg]
      simp [hb, runOutcome]
    · intro tool m hvt hlt hreg hb
      rw [execOk_valid st c tc now hvt, admitCall_of_run st tc now tool hlt hreg]
      simp [hb, runOutcome]
    · constructor
      · intro h
        cases hcr : checkRequired st (validationName c) tc.arguments with
        | false =>
          have hvf : validate_args st c = Except.ok false := by rw [hv, hcr]
          rw [execOk_invalid st c tc now hvf] at h
          simp at h
        | true =>
          have hvt : validate_args st c = Except.ok true := by rw [hv, hcr]
          rw [execOk_valid st c tc now hvt] at h
          by_cases hrate : st.rateLimit ≤ (evictLog (st.callLog tc.name) now).length
          · rw [admitCall_of_rate st tc now hrate] at h
            simp at h
          · have hlt := Nat.not_le.mp hrate
            cases hreg : st.registry tc.name with
            | none =>
              rw [admitCall_of_unknown st tc now hlt hreg] at h
              simp at h
            | some tool =>
              rw [admitCall_of_run st tc now tool hlt hreg] at h
              obtain ⟨v, hvv⟩ := (runOutcome_error_none _ _ _).mp h
              exact ⟨tool, v, hvt, hlt, rfl, hvv⟩
      · rintro ⟨tool, v, hvt, hlt, hreg, hb⟩
        rw [execOk_valid st c tc now hvt, admitCall_of_run st tc now tool hlt hreg,
          hb]
        simp [runOutcome]

/-- Witness for C1's amended statement: an empty-arguments dataclass call
raises; a fully-populated call to a known tool returns one result with
`error = none`; a call to the raising tool returns an error result. -/
theorem C1_witness :
    (∃ e, execute wSt (CallObject.attr wCallMissing) 0 = Except.error e)
    ∧ execute wSt (CallObject.attr wCall) 0 =
        Except.ok (execOk wSt (CallObject.attr wCall) wCall 0)
    ∧ (execOk wSt (CallObject.attr wCall) wCall 0).1.error = none
    ∧ (execOk wSt (CallObject.attr wCallFail) wCallFail 0).1.error =
        some ("RuntimeError" ++ ": " ++ "boom") := by
  refine ⟨(C1_amended_dispatcher wSt (CallObject.attr wCallMissing) 0).1.mpr
      ⟨wCallMissing, rfl, Or.inr (Or.inl rfl)⟩,
    ((C1_amended_dispatcher wSt (CallObject.attr wCall) 0).2.2 wCall rfl).1,
    ((C1_amended_dispatcher wSt (CallObject.attr wCall) 0).2.2 wCall
        rfl).2.2.2.2.2.2.2.mpr ⟨echoTool, some "hi", rfl, by decide, rfl, rfl⟩,
    ((C1_amended_dispatcher wSt (CallObject.attr wCallFail) 0).2.2 wCallFail
        rfl).2.2.2.2.2.1 failTool "RuntimeError" "boom" rfl (by decide) rfl rfl⟩

/-! ## Batch execution: order preservation and isolation -/

theorem setBehavior_registry (st : ExecState) (n : String)
    (b : List (String × Option String) → Outcome) (m : String) :
    (setBehavior st n b).registry m =
      if m = n then (st.registry m).map (fun t => { t with behavior := b })
      else st.registry m := rfl

theorem checkRequired_setBehavior (st : ExecState) (n : String)
    (b : List (String × Option String) → Outcome) (name : String)
    (args : List (String × Option String)) :
    checkRequired (setBehavior st n b) name args =
      checkRequired st name args := by
  by_cases h : name = n
  · subst h
    cases hr : st.registry name <;>
      simp [checkRequired, setBehavior, hr]
  · cases hr : st.registry name <;>
      simp [checkRequired, setBehavior, h, hr]

theorem validate_args_setBehavior (st : ExecState) (n : String)
    (b : List (String × Option String) → Outcome) (c : CallObject) :
    validate_args (setBehavior st n b) c = validate_args st c := by
  cases c with
  | attr tc => simp [validate_args, checkRequired_setBehavior]
  | dict nm a cid => simp [validate_args, checkRequired_setBehavior]

theorem admitCall_setBehavior (st : ExecState) (n : String)
    (b : List (String × Option String) → Outcome) (tc : ToolCall) (now : Rat) :
    (admitCall (setBehavior st n b) tc now).2 = setBehavior (admitCall st tc now).2 n b
    ∧ (tc.name ≠ n →
        (admitCall (setBehavior st n b) tc now).1 = (admitCall st tc now).1) := by
  by_cases h2 : st.rateLimit ≤ (evictLog (st.callLog tc.name) now).length
  · have h2' : (setBehavior st n b).rateLimit ≤
        (evictLog ((setBehavior st n b).callLog tc.name) now).length := h2
    rw [admitCall_of_rate st tc now h2, admitCall_of_rate (setBehavior st n b) tc now h2']
    exact ⟨rfl, fun _ => rfl⟩
  · have h2a := Nat.not_le.mp h2
    have h2b : (evictLog ((setBehavior st n b).callLog tc.name) now).length <
        (setBehavior st n b).rateLimit := h2a
    cases h3 : st.registry tc.name with
    | none =>
      have h3' : (setBehavior st n b).registry tc.name = none := by
        rw [setBehavior_registry]
        by_cases hn : tc.name = n
        · rw [if_pos hn, h3]; rfl
        · rw [if_neg hn, h3]
      rw [admitCall_of_unknown st tc now h2a h3,
          admitCall_of_unknown (setBehavior st n b) tc now h2b h3']
      exact ⟨rfl, fun _ => rfl⟩
    | some tool =>
      by_cases hn : tc.name = n
      · have h3' : (setBehavior st n b).registry tc.name =
            some { tool with behavior := b } := by
          rw [setBehavior_registry, if_pos hn, h3]; rfl
        rw [admitCall_of_run st tc now tool h2a h3,
            admitCall_of_run (setBehavior st n b) tc now _ h2b h3']
        exact ⟨rfl, fun hne => absurd hn hne⟩
      · have h3' : (setBehavior st n b).registry tc.name = some tool := by
          rw [setBehavior_registry, if_neg hn, h3]
        rw [admitCall_of_run st tc now tool h2a h3,
            admitCall_of_run (setBehavior st n b) tc now tool h2b h3']
        exact ⟨rfl, fun _ => rfl⟩

theorem execOk_setBehavior (st : ExecState) (n : String)
    (b : List (String × Option String) → Outcome) (c : CallObject)
    (tc : ToolCall) (now : Rat) :
    (execOk (setBehavior st n b) c tc now).2 =
      setBehavior (execOk st c tc now).2 n b
    ∧ (tc.name ≠ n →
        (execOk (setBehavior st n b) c tc now).1 = (execOk st c tc now).1) := by
  have hv := validate_args_setBehavior st n b c
  cases hval : validate_args st c with
  | error e =>
    constructor
    · simp [execOk, hv, hval]
    · intro _
      simp [execOk, hv, hval]
  | ok bv =>
    cases bv with
    | false =>
      constructor
      · simp [execOk, hv, hval]
      · intro _
        simp [execOk, hv, hval]
    | true =>
      rw [execOk_valid (setBehavior st n b) c tc now (hv.trans hval),
          execOk_valid st c tc now hval]
      exact admitCall_setBehavior st n b tc now

theorem execute_batch_nil (st : ExecState) (now : Rat) :
    execute_batch st [] now = Except.ok ([], st) := rfl

theorem execute_batch_ok (now : Rat) :
    ∀ (cs : List CallObject) (st : ExecState),
    (∀ c ∈ cs, ∃ tc, extractCall c = Except.ok tc) →
    ∃ rs st', execute_batch st cs now = Except.ok (rs, st')
      ∧ rs.length = cs.length
      ∧ (∀ i c tc, cs.get? i = some c → extractCall c = Except.ok tc →
          ∃ rsp stp, execute_batch st (cs.take i) now = Except.ok (rsp, stp)
            ∧ rs.get? i = some (execOk stp c tc now).1) := by
  intro cs
  induction cs with
  | nil =>
    intro st _
    exact ⟨[], st, rfl, rfl, fun i c tc h1 _ => by simp at h1⟩
  | cons c0 rest ih =>
    intro st hall
    obtain ⟨tc0, htc0⟩ := hall c0 (List.mem_cons_self c0 rest)
    obtain ⟨rs1, st1, hbatch, hlen, hidx⟩ :=
      ih (execOk st c0 tc0 now).2 (fun c hc => hall c (List.mem_cons_of_mem c0 hc))
    refine ⟨(execOk st c0 tc0 now).1 :: rs1, st1, ?_, by simp [hlen], ?_⟩
    · simp [execute_batch, execute_extract_ok st c0 tc0 now htc0, hbatch]
    · intro i c tc hi hext
      cases i with
      | zero =>
        obtain rfl : c0 = c := by simpa using hi
        obtain rfl : tc0 = tc := by
          rw [htc0] at hext
          simpa using hext
        exact ⟨[], st, rfl, rfl⟩
      | succ j =>
        obtain ⟨rsp, stp, hpb, hval⟩ := hidx j c tc (by simpa using hi) hext
        refine ⟨(execOk st c0 tc0 now).1 :: rsp, stp, ?_, by simpa using hval⟩
        simp [List.take_succ_cons, execute_batch,
          execute_extract_ok st c0 tc0 now htc0, hpb]

theorem execute_batch_setBehavior_ok (now : Rat) (n : String)
    (b : List (String × Option String) → Outcome) :
    ∀ (cs : List CallObject) (st : ExecState),
    (∀ c ∈ cs, ∃ tc, extractCall c = Except.ok tc) →
    ∃ rs st' rs2, execute_batch st cs now = Except.ok (rs, st')
      ∧ execute_batch (setBehavior st n b) cs now =
          Except.ok (rs2, setBehavior st' n b)
      ∧ (∀ i c tc, cs.get? i = some c → extractCall c = Except.ok tc →
          tc.name ≠ n → rs2.get? i = rs.get? i) := by
  intro cs
  induction cs with
  | nil =>
    intro st _
    exact ⟨[], st, [], rfl, rfl, fun i c tc h1 _ _ => by simp at h1⟩
  | cons c0 rest ih =>
    intro st hall
    obtain ⟨tc0, htc0⟩ := hall c0 (List.mem_cons_self c0 rest)
    obtain ⟨rs1, st1, rs2, hb1, hb2, hag⟩ :=
      ih (execOk st c0 tc0 now).2 (fun c hc => hall c (List.mem_cons_of_mem c0 hc))
    have hsb := execOk_setBehavior st n b c0 tc0 now
    refine ⟨(execOk st c0 tc0 now).1 :: rs1, st1,
      (execOk (setBehavior st n b) c0 tc0 now).1 :: rs2, ?_, ?_, ?_⟩
    · simp [execute_batch, execute_extract_ok st c0 tc0 now htc0, hb1]
    · have hb2' : execute_batch (execOk (setBehavior st n b) c0 tc0 now).2 rest now =
          Except.ok (rs2, setBehavior st1 n b) := by
        rw [hsb.1]
        exact hb2
      simp [execute_batch,
        execute_extract_ok (setBehavior st n b) c0 tc0 now htc0, hb2']
    · intro i c tc hi hext hne
      cases i with
      | zero =>
        obtain rfl : c0 = c := by simpa using hi
        obtain rfl : tc0 = tc := by
          rw [htc0] at hext
          simpa using hext
        simpa using congrArg some (hsb.2 hne)
      | succ j =>
        simpa using hag j c tc (by simpa using hi) hext hne

/-- C2 counterexample: a batch containing the repository's dataclass call
with an empty arguments dict makes `execute_batch` propagate the
extraction `AttributeError` (`asyncio.gather` with
`return_exceptions=False`) — no result sequence of any length is
returned, so one call's fault does destroy the other calls' results. -/
theorem C2_counterexample :
    execute_batch wSt wBatchCrash 0 = Except.error attrError := rfl

/-- C2 amended: for batches all of whose calls survive field extraction
(every mapping-style call, and attribute-style calls with non-falsy name,
arguments and call_id), `execute_batch` returns one result per call in
input order — same length, `i`-th slot holding the `i`-th call's result
(run from the state the earlier calls left) — the empty batch yields the
empty output with the state untouched, and one call's failure never
changes another call's result (replacing the behaviour of the tool a call
resolves to leaves every other slot unchanged).  A batch containing an
attribute-style call with a falsy field instead propagates
`AttributeError` and returns no sequence. -/
theorem C2_amended_batch (st : ExecState) (cs : List CallObject) (now : Rat) :
    (execute_batch st ([] : List CallObject) now = Except.ok ([], st))
    ∧ ((∀ c ∈ cs, ∃ tc, extractCall c = Except.ok tc) →
        ∃ rs st', execute_batch st cs now = Except.ok (rs, st')
          ∧ rs.length = cs.length
          ∧ (∀ i c tc, cs.get? i = some c → extractCall c = Except.ok tc →
              ∃ rsp stp, execute_batch st (cs.take i) now = Except.ok (rsp, stp)
                ∧ rs.get? i = some (execOk stp c tc now).1))
    ∧ ((∀ c ∈ cs, ∃ tc, extractCall c = Except.ok tc) → ∀ nm b,
        ∃ rs st' rs2, execute_batch st cs now = Except.ok (rs, st')
          ∧ execute_batch (setBehavior st nm b) cs now =
              Except.ok (rs2, setBehavior st' nm b)
          ∧ (∀ i c tc, cs.get? i = some c → extractCall c = Except.ok tc →
              tc.name ≠ nm → rs2.get? i = rs.get? i)) :=
  ⟨rfl, fun hall => execute_batch_ok now cs st hall,
   fun hall nm b => execute_batch_setBehavior_ok now nm b cs st hall⟩

/-- Witness for C2's amended statement: the crash-free 3-call batch (its
middle call's tool always raises) returns exactly 3 results, and swapping
the failing tool's behaviour for a succeeding one leaves the first slot's
result unchanged. -/
theorem C2_witness :
    (∃ rs st', execute_batch wSt wBatch 0 = Except.ok (rs, st')
      ∧ rs.length = 3)
    ∧ (∃ rs st' rs2, execute_batch wSt wBatch 0 = Except.ok (rs, st')
        ∧ execute_batch (setBehavior wSt "fail" wOkBehavior) wBatch 0 =
            Except.ok (rs2, setBehavior st' "fail" wOkBehavior)
        ∧ rs2.get? 0 = rs.get? 0) := by
  have hall : ∀ c ∈ wBatch, ∃ tc, extractCall c = Except.ok tc := by
    intro c hc
    simp only [wBatch, List.mem_cons, List.not_mem_nil, or_false] at hc
    rcases hc with rfl | rfl | rfl
    · exact ⟨wCall, rfl⟩
    · exact ⟨wCallFail, rfl⟩
    · exact ⟨wCall, rfl⟩
  constructor
  · obtain ⟨rs, st', h1, h2, -⟩ := (C2_amended_batch wSt wBatch 0).2.1 hall
    exact ⟨rs, st', h1, by rw [h2]; rfl⟩
  · obtain ⟨rs, st', rs2, h1, h2, hag⟩ :=
      (C2_amended_batch wSt wBatch 0).2.2 hall "fail" wOkBehavior
    exact ⟨rs, st', rs2, h1, h2,
      hag 0 (CallObject.attr wCall) wCall rfl rfl (by decide)⟩

/-! ## Rate limiting and validation -/

theorem evictLog_cons_of_lt (now t0 : Rat) (rest : List Rat)
    (h : t0 < now - 60) : evictLog (t0 :: rest) now = evictLog rest now := by
  simp [evictLog, List.dropWhile_cons, h]

theorem evictLog_cons_of_ge (now t0 : Rat) (rest : List Rat)
    (h : ¬ t0 < now - 60) : evictLog (t0 :: rest) now = t0 :: rest := by
  simp [evictLog, List.dropWhile_cons, h]

theorem evictLog_length_le (now : Rat) :
    ∀ l : List Rat, (evictLog l now).length ≤ l.length := by
  intro l
  induction l with
  | nil => exact Nat.le_refl 0
  | cons t rest ih =>
    by_cases h : t < now - 60
    · rw [evictLog_cons_of_lt now t rest h]
      exact Nat.le_succ_of_le ih
    · rw [evictLog_cons_of_ge now t rest h]

theorem evictLog_keep (now : Rat) (l : List Rat)
    (h : ∀ t0 ∈ l.head?, ¬ t0 < now - 60) : evictLog l now = l := by
  cases l with
  | nil => rfl
  | cons t0 rest => exact evictLog_cons_of_ge now t0 rest (h t0 rfl)

/-- C5 counterexample: the (N+1)th call — the `echo` window `[0, 10]` is
already at the limit 2 and `now = 30` lies within 60 seconds of the first
recorded call — presented as the repo's dataclass with its default
`call_id = ""`: `execute` raises `AttributeError` at field extraction,
before the rate check, instead of returning the rate-limit `ToolResult`. -/
theorem C5_counterexample :
    (wStBusy.callLog "echo").length = wStBusy.rateLimit
    ∧ (30 : Rat) - 0 ≤ 60
    ∧ execute wStBusy (CallObject.attr wCallNoId) 30 = Except.error attrError :=
  ⟨rfl, by norm_num, rfl⟩

/-- C5 amended: for a call whose field extraction succeeds (mapping-style,
or attribute-style with non-falsy name, arguments and call_id): with the
tool's window at the configured limit and its oldest recorded entry still
within 60 seconds of `now`, `execute` returns the rate-limit error result
with the exact message and never invokes the tool (the admitted result is
independent of the tool's behaviour); entries older than 60 seconds are
evicted at check time (so once the oldest entry ages out, a valid call to
a known tool is admitted and the tool runs); and a timestamp is appended
to the window only on actual invocation — a validation failure leaves the
whole state untouched, and a rate-limit or unknown-tool rejection only
drops the expired entries.  An attribute-style (N+1)th call with a falsy
field instead raises before the rate check. -/
theorem C5_amended_rate_limiting (st : ExecState) (c : CallObject)
    (tc : ToolCall) (now : Rat) (hext : extractCall c = Except.ok tc) :
    (validate_args st c = Except.ok true →
      (st.callLog tc.name).length = st.rateLimit →
      (∀ t0 ∈ (st.callLog tc.name).head?, ¬ t0 < now - 60) →
      execute st c now = Except.ok (admitCall st tc now)
      ∧ (admitCall st tc now).1.error = some (rateMsg tc.name st.rateLimit)
      ∧ (∀ b, (admitCall (setBehavior st tc.name b) tc now).1 =
          (admitCall st tc now).1))
    ∧ (∀ t0 rest, st.callLog tc.name = t0 :: rest → t0 < now - 60 →
        evictLog (st.callLog tc.name) now = evictLog rest now
        ∧ (evictLog (st.callLog tc.name) now).length ≤ rest.length)
    ∧ (∀ tool, validate_args st c = Except.ok true →
        st.registry tc.name = some tool →
        (evictLog (st.callLog tc.name) now).length < st.rateLimit →
        execute st c now = Except.ok (admitCall st tc now)
        ∧ (admitCall st tc now).1 =
            runOutcome tc.name tc.call_id (tool.behavior tc.arguments)
        ∧ (admitCall st tc now).2.callLog tc.name =
            evictLog (st.callLog tc.name) now ++ [now])
    ∧ (validate_args st c = Except.ok false →
        (execOk st c tc now).2 = st
        ∧ execute st c now = Except.ok (execOk st c tc now))
    ∧ (validate_args st c = Except.ok true →
        st.rateLimit ≤ (evictLog (st.callLog tc.name) now).length →
        (admitCall st tc now).2.callLog tc.name =
          evictLog (st.callLog tc.name) now)
    ∧ (validate_args st c = Except.ok true →
        (evictLog (st.callLog tc.name) now).length < st.rateLimit →
        st.registry tc.name = none →
        (admitCall st tc now).2.callLog tc.name =
          evictLog (st.callLog tc.name) now) := by
  refine ⟨?_, ?_, ?_, ?_, ?_, ?_⟩
  · intro hvt hlen hhead
    have hkeep : evictLog (st.callLog tc.name) now = st.callLog tc.name :=
      evictLog_keep now _ hhead
    have hrate : st.rateLimit ≤ (evictLog (st.callLog tc.name) now).length := by
      rw [hkeep, hlen]
    refine ⟨?_, ?_, ?_⟩
    · rw [execute_extract_ok st c tc now hext, execOk_valid st c tc now hvt]
    · rw [admitCall_of_rate st tc now hrate]
    · intro b
      have hrate' : (setBehavior st tc.name b).rateLimit ≤
          (evictLog ((setBehavior st tc.name b).callLog tc.name) now).length :=
        hrate
      rw [admitCall_of_rate st tc now hrate,
          admitCall_of_rate (setBehavior st tc.name b) tc now hrate']
      rfl
  · intro t0 rest hl hlt
    rw [hl, evictLog_cons_of_lt now t0 rest hlt]
    exact ⟨rfl, evictLog_length_le now rest⟩
  · intro tool hvt hreg hlt
    refine ⟨?_, ?_, ?_⟩
    · rw [execute_extract_ok st c tc now hext, execOk_valid st c tc now hvt]
    · rw [admitCall_of_run st tc now tool hlt hreg]
    · rw [admitCall_of_run st tc now tool hlt hreg]
      simp [setLog]
  · intro hvf
    refine ⟨?_, execute_extract_ok st c tc now hext⟩
    rw [execOk_invalid st c tc now hvf]
  · intro hvt hge
    rw [admitCall_of_rate st tc now hge]
    simp [setLog]
  · intro hvt hlt hreg
    rw [admitCall_of_unknown st tc now hlt hreg]
    simp [setLog]

/-- Witness for C5's amended statement: with limit 2 and window `[0, 10]`,
a third (extraction-surviving) call at `now = 30` is rejected with the
rate-limit message; at `now = 70` the entry `0` has expired, the call is
admitted (the tool actually runs) and `70` is recorded after eviction. -/
theorem C5_witness :
    execute wStBusy (CallObject.attr wCall) 30 =
      Except.ok (admitCall wStBusy wCall 30)
    ∧ (admitCall wStBusy wCall 30).1.error = some (rateMsg "echo" 2)
    ∧ (admitCall wStBusy wCall 70).1 =
        runOutcome "echo" "c1" (echoTool.behavior wCall.arguments)
    ∧ (admitCall wStBusy wCall 70).2.callLog "echo" = [10, 70] := by
  have h70 : evictLog (wStBusy.callLog "echo") 70 = [10] := by
    show evictLog [0, 10] 70 = [10]
    rw [evictLog_cons_of_lt 70 0 [10] (by norm_num)]
    exact evictLog_cons_of_ge 70 10 [] (by norm_num)
  have hhead : ∀ t0 ∈ (wStBusy.callLog "echo").head?, ¬ t0 < (30:Rat) - 60 := by
    intro t0 ht
    have ht2 : some (0:Rat) = some t0 := Option.mem_def.mp ht
    cases ht2
    norm_num
  have hlt : (evictLog (wStBusy.callLog wCall.name) 70).length <
      wStBusy.rateLimit := by
    show (evictLog (wStBusy.callLog "echo") 70).length < 2
    rw [h70]
    exact Nat.lt_succ_self 1
  have h30 := (C5_amended_rate_limiting wStBusy (CallObject.attr wCall) wCall 30
    rfl).1 rfl rfl hhead
  have h70run := (C5_amended_rate_limiting wStBusy (CallObject.attr wCall) wCall
    70 rfl).2.2.1 echoTool rfl rfl hlt
  refine ⟨h30.1, h30.2.1, h70run.2.1, ?_⟩
  have h3 : (admitCall wStBusy wCall 70).2.callLog "echo" =
      evictLog (wStBusy.callLog "echo") 70 ++ [70] := h70run.2.2
  rw [h70] at h3
  simpa using h3

/-- C6 counterexample: the claim's central input — a required field absent
because `arguments` is the empty dict — presented as the repo's
attribute-style dataclass: `execute` raises `AttributeError` instead of
returning the invalid-arguments `ToolResult`, although the registered
tool's schema does list the field as required. -/
theorem C6_counterexample :
    "text" ∈ echoTool.required
    ∧ wCallMissing.arguments.lookup "text" = none
    ∧ execute wSt (CallObject.attr wCallMissing) 0 = Except.error attrError :=
  ⟨by decide, rfl, rfl⟩

/-- C6 amended: for a registered tool whose schema lists required fields
and a call whose field extraction succeeds (mapping-style — including the
spec's `{name: weather, arguments: {}}` scenario — or attribute-style with
non-falsy fields) whose validation name resolves to the tool: a required
field absent from the arguments or bound to null yields the exact
invalid-arguments error result with `result` absent, the executor state
(including the tool's rate window) completely unchanged, and the tool's
own execute never invoked (the outcome is the same whatever behaviour the
tool is given).  An attribute-style call whose missing field leaves the
arguments dict empty instead raises `AttributeError`. -/
theorem C6_amended_validation (st : ExecState) (c : CallObject)
    (tc : ToolCall) (now : Rat) (f : String) (tool : Tool)
    (hext : extractCall c = Except.ok tc)
    (hname : validationName c = tc.name)
    (hreg : st.registry tc.name = some tool) (hf : f ∈ tool.required)
    (hmiss : tc.arguments.lookup f = none ∨ tc.arguments.lookup f = some none) :
    execute st c now = Except.ok (execOk st c tc now)
    ∧ (execOk st c tc now).1.error =
        some ("Invalid arguments for tool \x27" ++ tc.name ++ "\x27")
    ∧ (execOk st c tc now).1.result = none
    ∧ (execOk st c tc now).2 = st
    ∧ (∀ b, execute (setBehavior st tc.name b) c now =
        Except.ok ((execOk st c tc now).1, setBehavior st tc.name b)) := by
  have hcr : checkRequired st tc.name tc.arguments = false := by
    cases hb : checkRequired st tc.name tc.arguments with
    | false => rfl
    | true =>
      exfalso
      simp only [checkRequired, hreg] at hb
      have hall := List.all_eq_true.mp hb f hf
      rcases hmiss with h | h <;> rw [h] at hall <;> simp at hall
  have hvf : validate_args st c = Except.ok false := by
    rw [validate_args_of_extract st c tc hext, hname, hcr]
  refine ⟨execute_extract_ok st c tc now hext, ?_, ?_, ?_, ?_⟩
  · rw [execOk_invalid st c tc now hvf]
  · rw [execOk_invalid st c tc now hvf]
  · rw [execOk_invalid st c tc now hvf]
  · intro b
    have hvf2 : validate_args (setBehavior st tc.name b) c = Except.ok false :=
      (validate_args_setBehavior st tc.name b c).trans hvf
    rw [execute_extract_ok (setBehavior st tc.name b) c tc now hext,
        execOk_invalid (setBehavior st tc.name b) c tc now hvf2,
        execOk_invalid st c tc now hvf]

/-- Witness for C6's amended statement: a null-valued required argument on
the dataclass call, and the spec's mapping-style weather scenario with
empty arguments, both yield the exact invalid-arguments result with the
executor state untouched. -/
theorem C6_witness :
    execute wSt (CallObject.attr wCallNull) 0 =
      Except.ok (execOk wSt (CallObject.attr wCallNull) wCallNull 0)
    ∧ (execOk wSt (CallObject.attr wCallNull) wCallNull 0).1.error =
        some ("Invalid arguments for tool \x27" ++ "echo" ++ "\x27")
    ∧ (execOk wSt (CallObject.attr wCallNull) wCallNull 0).2 = wSt
    ∧ (execOk wWeatherSt (CallObject.dict (some "weather") (some []) none)
        ⟨"weather", [], ""⟩ 0).1.error =
        some ("Invalid arguments for tool \x27" ++ "weather" ++ "\x27") := by
  refine ⟨(C6_amended_validation wSt (CallObject.attr wCallNull) wCallNull 0
      "text" echoTool rfl rfl rfl (by decide) (Or.inr rfl)).1,
    (C6_amended_validation wSt (CallObject.attr wCallNull) wCallNull 0
      "text" echoTool rfl rfl rfl (by decide) (Or.inr rfl)).2.1,
    (C6_amended_validation wSt (CallObject.attr wCallNull) wCallNull 0
      "text" echoTool rfl rfl rfl (by decide) (Or.inr rfl)).2.2.2.1,
    (C6_amended_validation wWeatherSt
      (CallObject.dict (some "weather") (some []) none)
      ⟨"weather", [], ""⟩ 0 "location" weatherTool rfl rfl rfl (by decide)
      (Or.inl rfl)).2.1⟩

/-! ## Conversation memory: history cap, persistence, summarization -/

/-- C3 counterexample: `load` accepts a session file holding five turns
with `max_history = 4` and installs all five without trimming, so right
after this mutating operation the stored turn count exceeds `max_history` —
the claimed invariant does not hold after every mutation. -/
theorem C3_counterexample :
    SessionMemory.load ⟨4, []⟩ c3File = Except.ok c3Loaded
    ∧ c3Loaded.max_history < c3Loaded.messages.length := by
  exact ⟨rfl, by decide⟩

/-- C3 amended: `add_message` appends the new turn and then drops the
oldest turns first (FIFO), so after it (and after `clear`, and after
`summarize` from any state within the cap) `len(turns) ≤ max_history`
holds; adding 6 messages with `max_history = 4` leaves exactly messages 3–6
in original order.  `load`, however, installs exactly the file's turns
without trimming (and takes `max_history` from the file when present), so
after `load` the cap holds only when the loaded file's turn count is at
most the resulting `max_history` — as for any file produced by `save`. -/
theorem C3_amended_history_cap (mem : SessionMemory) (role content : String)
    (now : Rat) (file : SessionFile) (m' : SessionMemory) :
    ((mem.add_message role content now).messages =
      (mem.messages ++ [(⟨role, content, now, countTokens content⟩ : Message)]).drop
        ((mem.messages ++ [(⟨role, content, now, countTokens content⟩ : Message)]).length
          - mem.max_history))
    ∧ ((mem.add_message role content now).messages.length ≤ mem.max_history)
    ∧ ((mem.add_message role content now).max_history = mem.max_history)
    ∧ (mem.clear.messages.length ≤ mem.max_history)
    ∧ (mem.messages.length ≤ mem.max_history →
        (mem.summarize now).2.messages.length ≤ mem.max_history)
    ∧ (mem.load file = Except.ok m' →
        ∃ ms, file.messages = some ms
          ∧ m'.messages.length = ms.length
          ∧ m'.max_history = file.max_history.getD mem.max_history)
    ∧ ((addMsgs ⟨4, []⟩ ["m1", "m2", "m3", "m4", "m5", "m6"]).messages.map
        Message.content = ["m3", "m4", "m5", "m6"]) := by
  refine ⟨?_, ?_, ?_, ?_, ?_, ?_, by decide⟩
  · simp only [SessionMemory.add_message]
    split
    next h => rfl
    next h => rw [Nat.sub_eq_zero_of_le (Nat.not_lt.mp h), List.drop_zero]
  · simp only [SessionMemory.add_message]
    split
    next h => simp only [List.length_drop]; omega
    next h => exact Nat.not_lt.mp h
  · simp only [SessionMemory.add_message]
    split
    next h => rfl
    next h => rfl
  · exact Nat.zero_le _
  · intro hcap
    by_cases h : mem.messages.length ≤ 10
    · simp only [SessionMemory.summarize, if_pos h]
      exact hcap
    · simp only [SessionMemory.summarize, if_neg h, List.length_cons,
        List.length_drop]
      omega
  · intro hld
    cases hms : file.messages with
    | none => simp [SessionMemory.load, hms] at hld
    | some ms =>
      simp only [SessionMemory.load, hms, Except.ok.injEq] at hld
      refine ⟨ms, rfl, ?_, ?_⟩
      · rw [← hld]; simp
      · rw [← hld]

/-- Witness for C3's amended statement: a concrete memory at the cap, a
summarize within the cap, and a concrete load. -/
theorem C3_witness :
    ((addMsgs ⟨4, []⟩ ["m1", "m2", "m3", "m4", "m5", "m6"]).messages.map
        Message.content = ["m3", "m4", "m5", "m6"])
    ∧ ((⟨4, []⟩ : SessionMemory).summarize 0).2.messages.length ≤ 4
    ∧ (∃ ms, c3File.messages = some ms
        ∧ c3Loaded.messages.length = ms.length
        ∧ c3Loaded.max_history = c3File.max_history.getD 4) := by
  refine ⟨(C3_amended_history_cap ⟨4, []⟩ "u" "x" 0 c3File c3Loaded).2.2.2.2.2.2,
    (C3_amended_history_cap ⟨4, []⟩ "u" "x" 0 c3File c3Loaded).2.2.2.2.1
      (by decide), ?_⟩
  exact (C3_amended_history_cap ⟨4, []⟩ "u" "x" 0 c3File c3Loaded).2.2.2.2.2.1 rfl

/-- C7: `save` followed by `load` (on any loading memory) reconstructs
exactly the saved state: the same ordered turn sequence — each turn's role,
content, timestamp and cached token count preserved — and the saved
`max_history`. -/
theorem C7_save_load_roundtrip (mem loader : SessionMemory) (now : Rat) :
    loader.load (mem.save now) = Except.ok ⟨mem.max_history, mem.messages⟩ := by
  simp only [SessionMemory.save, SessionMemory.load, List.map_map,
    Option.getD_some, Except.ok.injEq, SessionMemory.mk.injEq]
  exact ⟨trivial, List.map_id mem.messages⟩

theorem data_append (s t : String) : (s ++ t).data = s.data ++ t.data := rfl

theorem pyTake_length_le (s : String) (n : Nat) :
    (pyTake s n).length ≤ n := by
  show (s.data.take n).length ≤ n
  simp [List.length_take]

theorem summaryLine_length (m : Message) :
    (summaryLine m).length ≤ 109 := by
  have hsnip := pyTake_length_le m.content 100
  have hdl : m.content.data.length = m.content.length := rfl
  have hell : ("…" : String).length = 1 := rfl
  have hu : ("  User: " : String).length = 8 := rfl
  have ha : ("  Aria: " : String).length = 8 := rfl
  by_cases hc : 100 < m.content.length <;>
    by_cases hr : m.role = "user" <;>
    simp [summaryLine, String.length_append, hr, hdl, hc, hell, hu, ha] <;>
    omega

set_option maxRecDepth 8192 in
/-- C8 counterexample: on an 11-message memory whose single collapsed turn
has a 150-character content, `summarize` returns a digest whose line for
that turn (its entire second line) is 109 characters long — more than the
claimed 100-character bound (the code truncates the content to 100
characters, but the role prefix and ellipsis push the line past 100). -/
theorem C8_counterexample :
    (c8Mem.summarize 0).1 = c8Header ++ "\n" ++ summaryLine c8Msg
    ∧ 100 < (summaryLine c8Msg).length := by
  exact ⟨rfl, by decide⟩

/-- C8 amended: `summarize` returns `""` and leaves the turn list unchanged
whenever at most 10 turns are stored; otherwise it replaces the list by one
synthetic system-role summary turn followed by the 10 most recent turns
kept verbatim, where the summary is a deterministic digest with one entry
per collapsed turn whose content snippet is truncated to at most 100
characters — the full entry line (role label plus snippet plus possible
ellipsis) is at most 109 characters, not 100. -/
theorem C8_amended_summarize (mem : SessionMemory) (now : Rat) :
    (mem.messages.length ≤ 10 → mem.summarize now = ("", mem))
    ∧ (10 < mem.messages.length →
        (mem.summarize now).1 =
          summaryText (mem.messages.take (mem.messages.length - 10))
        ∧ (mem.summarize now).2.messages =
            (⟨"system",
              summaryText (mem.messages.take (mem.messages.length - 10)), now,
              countTokens (summaryText
                (mem.messages.take (mem.messages.length - 10)))⟩ : Message)
            :: mem.messages.drop (mem.messages.length - 10)
        ∧ (mem.summarize now).2.messages.length = 11
        ∧ (mem.summarize now).2.max_history = mem.max_history)
    ∧ (∀ m : Message, (summaryLine m).length ≤ 109
        ∧ (pyTake m.content 100).length ≤ 100) := by
  refine ⟨?_, ?_, fun m => ⟨summaryLine_length m, pyTake_length_le m.content 100⟩⟩
  · intro h
    simp [SessionMemory.summarize, h]
  · intro h
    have h' : ¬ mem.messages.length ≤ 10 := Nat.not_le.mpr h
    refine ⟨?_, ?_, ?_, ?_⟩
    · simp only [SessionMemory.summarize, if_neg h']
    · simp only [SessionMemory.summarize, if_neg h']
    · simp only [SessionMemory.summarize, if_neg h', List.length_cons,
        List.length_drop]
      omega
    · simp only [SessionMemory.summarize, if_neg h']

/-- Witness for C8's amended statement: a 1-message memory is a no-op; the
11-message memory collapses to a summary turn plus 10 recent turns; the
collapsed turn's digest line is within 109 characters. -/
theorem C8_witness :
    ((⟨100, [wMsg "a" 5]⟩ : SessionMemory).summarize 0 =
      ("", ⟨100, [wMsg "a" 5]⟩))
    ∧ (c8Mem.summarize 0).2.messages.length = 11
    ∧ (summaryLine c8Msg).length ≤ 109 := by
  refine ⟨(C8_amended_summarize ⟨100, [wMsg "a" 5]⟩ 0).1 (by decide),
    ((C8_amended_summarize c8Mem 0).2.1 (by decide)).2.2.1,
    ((C8_amended_summarize c8Mem 0).2.2 c8Msg).1⟩

/-! ## Context window selection -/

theorem tokSum_reverse (l : List Message) : tokSum l.reverse = tokSum l := by
  simp [tokSum, List.map_reverse, List.sum_reverse]

theorem tokSum_cons (m : Message) (l : List Message) :
    tokSum (m :: l) = m.effTokens + tokSum l := by
  simp [tokSum]

theorem cwLoop_spec (maxT : Nat) :
    ∀ (rev : List Message) (used : Nat) (sel : List Message),
    ∃ j, j ≤ rev.length
      ∧ cwLoop maxT rev used sel = (rev.take j).reverse ++ sel
      ∧ (j = rev.length ∨ ∃ m, rev.get? j = some m
          ∧ maxT < used + tokSum (rev.take j) + m.effTokens
          ∧ (rev.take j).reverse ++ sel ≠ []) := by
  intro rev
  induction rev with
  | nil =>
    intro used sel
    exact ⟨0, Nat.le_refl 0, rfl, Or.inl rfl⟩
  | cons m rest ih =>
    intro used sel
    by_cases hb : maxT < used + m.effTokens ∧ sel ≠ []
    · refine ⟨0, Nat.zero_le _, by simp [cwLoop, hb], Or.inr ⟨m, rfl, ?_, ?_⟩⟩
      · simpa [tokSum] using hb.1
      · simpa using hb.2
    · obtain ⟨j, hj, heq, hbr⟩ := ih (used + m.effTokens) (m :: sel)
      refine ⟨j + 1, Nat.succ_le_succ hj, ?_, ?_⟩
      · have hstep : cwLoop maxT (m :: rest) used sel =
            cwLoop maxT rest (used + m.effTokens) (m :: sel) := by
          simp [cwLoop, hb]
        rw [hstep, heq]
        simp [List.take_succ_cons, List.reverse_cons, List.append_assoc]
      · rcases hbr with h | hex
        · exact Or.inl (by simp [h])
        · obtain ⟨mm, hget, hlt, hne⟩ := hex
          refine Or.inr ⟨mm, by simpa using hget, ?_, ?_⟩
          · have hts : tokSum ((m :: rest).take (j + 1)) =
                m.effTokens + tokSum (rest.take j) := by
              simp [List.take_succ_cons, tokSum]
            rw [hts]
            omega
          · simp [List.take_succ_cons, List.reverse_cons]

theorem cwLoop_budget (maxT : Nat) :
    ∀ (rev : List Message) (used : Nat) (sel : List Message),
    used = tokSum sel →
    (2 ≤ sel.length → tokSum sel ≤ maxT) →
    (2 ≤ (cwLoop maxT rev used sel).length →
      tokSum (cwLoop maxT rev used sel) ≤ maxT) := by
  intro rev
  induction rev with
  | nil => intro used sel hused hsel; exact hsel
  | cons m rest ih =>
    intro used sel hused hsel
    by_cases hb : maxT < used + m.effTokens ∧ sel ≠ []
    · simpa [cwLoop, hb] using hsel
    · have hstep : cwLoop maxT (m :: rest) used sel =
          cwLoop maxT rest (used + m.effTokens) (m :: sel) := by
        simp [cwLoop, hb]
      rw [hstep]
      apply ih
      · rw [tokSum_cons, hused, Nat.add_comm]
      · intro h2
        have hselne : sel ≠ [] := by
          intro hnil
          rw [hnil] at h2
          simp at h2
        have hle : used + m.effTokens ≤ maxT :=
          Nat.not_lt.mp (fun hlt => hb ⟨hlt, hselne⟩)
        calc tokSum (m :: sel) = m.effTokens + tokSum sel := tokSum_cons m sel
          _ = used + m.effTokens := by rw [hused, Nat.add_comm]
          _ ≤ maxT := hle

theorem reverse_take_eq_drop {α : Type} (l : List α) (j : Nat)
    (hj : j ≤ l.length) :
    (l.reverse.take j).reverse = l.drop (l.length - j) := by
  have h1 : l.reverse =
      (l.drop (l.length - j)).reverse ++ (l.take (l.length - j)).reverse := by
    rw [← List.reverse_append, List.take_append_drop]
  have h2 : (l.drop (l.length - j)).reverse.length = j := by
    simp [List.length_drop]
    omega
  rw [h1, List.take_left' h2, List.reverse_reverse]

theorem drop_getLast? {α : Type} (l : List α) (k : Nat) (h : l.drop k ≠ []) :
    (l.drop k).getLast? = l.getLast? := by
  conv_rhs => rw [← List.take_append_drop k l]
  rw [List.getLast?_append_of_ne_nil _ h]

/-- C4: `get_context_window` scans from the most recent turn backward and
returns a chronologically ordered suffix of the stored turns; on a
non-empty memory the selection is never empty and always contains the most
recent turn (even when that turn alone exceeds the budget); whenever at
least two turns are selected the selected token total is within the
budget; and when the scan stops early, the turn just before the selection
is exactly one that would have pushed the total over `max_tokens`. -/
theorem C4_context_window (mem : SessionMemory) (maxT : Nat) :
    (mem.messages ≠ [] → mem.contextSelection maxT ≠ [])
    ∧ (∃ k, mem.contextSelection maxT = mem.messages.drop k)
    ∧ (mem.messages ≠ [] →
        (mem.contextSelection maxT).getLast? = mem.messages.getLast?)
    ∧ (2 ≤ (mem.contextSelection maxT).length →
        tokSum (mem.contextSelection maxT) ≤ maxT)
    ∧ (mem.contextSelection maxT ≠ mem.messages →
        ∃ pre m, mem.messages = pre ++ m :: mem.contextSelection maxT
          ∧ maxT < tokSum (mem.contextSelection maxT) + m.effTokens)
    ∧ mem.get_context_window maxT =
        (mem.contextSelection maxT).map Message.to_dict := by
  obtain ⟨j, hj, heq, hbr⟩ := cwLoop_spec maxT mem.messages.reverse 0 []
  have hjlen : j ≤ mem.messages.length := by simpa using hj
  have hS2 : mem.contextSelection maxT = (mem.messages.reverse.take j).reverse := by
    rw [SessionMemory.contextSelection, heq, List.append_nil]
  have hS : mem.contextSelection maxT =
      mem.messages.drop (mem.messages.length - j) := by
    rw [hS2, reverse_take_eq_drop mem.messages j hjlen]
  have hnonempty : mem.messages ≠ [] → mem.contextSelection maxT ≠ [] := by
    intro hmne
    rcases hbr with hcase | hex
    · have hfull : mem.contextSelection maxT = mem.messages := by
        rw [hS2, hcase, List.take_length, List.reverse_reverse]
      rw [hfull]; exact hmne
    · obtain ⟨m, _, _, hne⟩ := hex
      rw [hS2]
      simpa using hne
  have hlast : mem.messages ≠ [] →
      (mem.contextSelection maxT).getLast? = mem.messages.getLast? := by
    intro hmne
    have hne := hnonempty hmne
    rw [hS] at hne ⊢
    exact drop_getLast? mem.messages _ hne
  have hbudget : 2 ≤ (mem.contextSelection maxT).length →
      tokSum (mem.contextSelection maxT) ≤ maxT := by
    intro h2
    exact cwLoop_budget maxT mem.messages.reverse 0 [] rfl
      (fun hh => by simp at hh) h2
  have hstop : mem.contextSelection maxT ≠ mem.messages →
      ∃ pre m, mem.messages = pre ++ m :: mem.contextSelection maxT
        ∧ maxT < tokSum (mem.contextSelection maxT) + m.effTokens := by
    intro hne
    rcases hbr with hcase | hex
    · exact absurd (by rw [hS2, hcase, List.take_length, List.reverse_reverse]) hne
    · obtain ⟨m, hget, hlt, _⟩ := hex
      obtain ⟨hjlt, hgetel⟩ := List.get?_eq_some.mp hget
      have hgm : mem.messages.reverse[j] = m := by
        rw [← hgetel]
        rfl
      have hdrop : mem.messages.reverse.drop j =
          m :: mem.messages.reverse.drop (j + 1) := by
        rw [List.drop_eq_getElem_cons hjlt, hgm]
      refine ⟨(mem.messages.reverse.drop (j + 1)).reverse, m, ?_, ?_⟩
      · rw [hS2]
        calc mem.messages = mem.messages.reverse.reverse :=
              (List.reverse_reverse _).symm
          _ = (mem.messages.reverse.take j ++ mem.messages.reverse.drop j).reverse := by
              rw [List.take_append_drop]
          _ = (mem.messages.reverse.drop j).reverse ++
                (mem.messages.reverse.take j).reverse :=
              List.reverse_append _ _
          _ = (m :: mem.messages.reverse.drop (j + 1)).reverse ++
                (mem.messages.reverse.take j).reverse := by rw [hdrop]
          _ = (mem.messages.reverse.drop (j + 1)).reverse ++
                m :: (mem.messages.reverse.take j).reverse := by
              rw [List.reverse_cons, List.append_assoc]
              rfl
      · have htok : tokSum (mem.contextSelection maxT) =
            tokSum (mem.messages.reverse.take j) := by
          rw [hS2, tokSum_reverse]
        rw [htok]
        simpa using hlt
  exact ⟨hnonempty, ⟨mem.messages.length - j, hS⟩, hlast, hbudget, hstop, rfl⟩

/-- Witness for C4 on a concrete 3-turn memory (token costs 5, 3, 4) and
budget 7: the selection is non-empty, is a suffix, keeps the most recent
turn, fits the budget, and the turn just before it would overflow. -/
theorem C4_witness :
    wMemB.contextSelection 7 ≠ []
    ∧ (∃ k, wMemB.contextSelection 7 = wMemB.messages.drop k)
    ∧ (wMemB.contextSelection 7).getLast? = wMemB.messages.getLast?
    ∧ tokSum (wMemB.contextSelection 7) ≤ 7
    ∧ (∃ pre m, wMemB.messages = pre ++ m :: wMemB.contextSelection 7
        ∧ 7 < tokSum (wMemB.contextSelection 7) + m.effTokens) := by
  refine ⟨(C4_context_window wMemB 7).1 (by decide),
    (C4_context_window wMemB 7).2.1,
    (C4_context_window wMemB 7).2.2.1 (by decide),
    (C4_context_window wMemB 7).2.2.2.1 (by decide),
    (C4_context_window wMemB 7).2.2.2.2.1 (by decide)⟩

/-! ## Device selection and listing -/

theorem get_device_cached (st : MgrState) (connected : String → Bool)
    (devices : List DeviceInfo) (s : String)
    (hs : st.active_serial = some s) (hok : cachedOk st connected = true) :
    get_device st connected devices = Except.ok (⟨s⟩, st) := by
  obtain ⟨as, br⟩ := st
  have hs' : as = some s := hs
  subst hs'
  cases br with
  | none => simp [cachedOk] at hok
  | some b =>
    have hc : connected s = true := by simpa [cachedOk] using hok
    simp [get_device, hc]

theorem get_device_uncached (st : MgrState) (connected : String → Bool)
    (devices : List DeviceInfo) (hok : cachedOk st connected = false) :
    get_device st connected devices =
      (match devices.filter (fun d => d.is_authorized && d.is_online) with
       | [] => Except.error noDeviceMsg
       | d0 :: _ =>
         Except.ok
           (⟨((match st.active_serial with
               | some s =>
                 match (devices.filter
                     (fun d => d.is_authorized && d.is_online)).find?
                     (fun (d : DeviceInfo) => d.serial == s) with
                 | some d => d
                 | none => d0
               | none => d0) : DeviceInfo).serial⟩,
            { active_serial := some ((match st.active_serial with
                | some s =>
                  match (devices.filter
                      (fun d => d.is_authorized && d.is_online)).find?
                      (fun (d : DeviceInfo) => d.serial == s) with
                  | some d => d
                  | none => d0
                | none => d0) : DeviceInfo).serial,
              bridge := some ⟨((match st.active_serial with
                | some s =>
                  match (devices.filter
                      (fun d => d.is_authorized && d.is_online)).find?
                      (fun (d : DeviceInfo) => d.serial == s) with
                  | some d => d
                  | none => d0
                | none => d0) : DeviceInfo).serial⟩ })) := by
  obtain ⟨as, br⟩ := st
  cases br with
  | none =>
    cases as with
    | none => simp only [get_device]
    | some s => simp only [get_device]
  | some b =>
    cases as with
    | none => simp only [get_device]
    | some s =>
      have hc : connected s = false := by simpa [cachedOk] using hok
      simp only [get_device, hc]
      rfl

/-- C9: `get_device` fails with the no-device error exactly when the cached
handle does not answer as connected and the fresh listing has no
authorized-online device; with a live cached handle it returns a bridge for
the active serial without rescanning state; otherwise it rebinds to the
previously active serial when that serial is still authorized-online in the
listing, and to the first authorized-online device in discovery order when
it is not, caching the chosen serial and bridge as the active session. -/
theorem C9_get_device_selection (st : MgrState) (connected : String → Bool)
    (devices : List DeviceInfo) :
    ((∃ e, get_device st connected devices = Except.error e) ↔
      (cachedOk st connected = false
        ∧ devices.filter (fun d => d.is_authorized && d.is_online) = []))
    ∧ (∀ s, st.active_serial = some s → cachedOk st connected = true →
        get_device st connected devices = Except.ok (⟨s⟩, st))
    ∧ (∀ s d, st.active_serial = some s → cachedOk st connected = false →
        (devices.filter (fun d => d.is_authorized && d.is_online)).find?
          (fun (x : DeviceInfo) => x.serial == s) = some d →
        get_device st connected devices =
          Except.ok (⟨d.serial⟩, ⟨some d.serial, some ⟨d.serial⟩⟩))
    ∧ (∀ d0 rest,
        devices.filter (fun d => d.is_authorized && d.is_online) = d0 :: rest →
        cachedOk st connected = false →
        (st.active_serial = none ∨
          ∃ s, st.active_serial = some s ∧
            (devices.filter (fun d => d.is_authorized && d.is_online)).find?
              (fun (x : DeviceInfo) => x.serial == s) = none) →
        get_device st connected devices =
          Except.ok (⟨d0.serial⟩, ⟨some d0.serial, some ⟨d0.serial⟩⟩)) := by
  refine ⟨⟨?_, ?_⟩, ?_, ?_, ?_⟩
  · rintro ⟨e, he⟩
    cases hok : cachedOk st connected with
    | true =>
      obtain ⟨as, br⟩ := st
      cases br with
      | none => simp [cachedOk] at hok
      | some b =>
        cases has : as with
        | none => rw [has] at hok; simp [cachedOk] at hok
        | some s =>
          rw [has] at he hok
          rw [get_device_cached ⟨some s, some b⟩ connected devices s rfl hok]
            at he
          simp at he
    | false =>
      refine ⟨rfl, ?_⟩
      rw [get_device_uncached st connected devices hok] at he
      cases hfil : devices.filter (fun d => d.is_authorized && d.is_online) with
      | nil => rfl
      | cons d0 rest =>
        rw [hfil] at he
        simp at he
  · rintro ⟨hok, hfil⟩
    refine ⟨noDeviceMsg, ?_⟩
    rw [get_device_uncached st connected devices hok, hfil]
  · intro s hs hok
    exact get_device_cached st connected devices s hs hok
  · intro s d hs hok hfind
    rw [get_device_uncached st connected devices hok]
    cases hfil : devices.filter (fun d => d.is_authorized && d.is_online) with
    | nil =>
      rw [hfil] at hfind
      simp at hfind
    | cons d0 rest =>
      rw [hfil] at hfind
      simp only [hs, hfind]
  · intro d0 rest hfil hok hsel
    rw [get_device_uncached st connected devices hok, hfil]
    rcases hsel with hnone | ⟨s, hs, hfind⟩
    · simp only [hnone]
    · rw [hfil] at hfind
      simp only [hs, hfind]

/-- Witness for C9: an empty listing with no cache raises the no-device
error; with previously active serial `serialB` and no cached bridge, the
manager rebinds to `serialB` (still eligible) rather than the first device. -/
theorem C9_witness :
    (∃ e, get_device ⟨none, none⟩ (fun _ => false) ([] : List DeviceInfo) =
      Except.error e)
    ∧ get_device ⟨some "serialB", none⟩ (fun _ => true) [devA, devB] =
        Except.ok (⟨"serialB"⟩, ⟨some "serialB", some ⟨"serialB"⟩⟩) := by
  constructor
  · exact (C9_get_device_selection ⟨none, none⟩ (fun _ => false) []).1.mpr
      ⟨rfl, rfl⟩
  · exact (C9_get_device_selection ⟨some "serialB", none⟩ (fun _ => true)
      [devA, devB]).2.2.1 "serialB" devB rfl rfl (by decide)

theorem enrich_flags (info : DeviceInfo) (p : Option (String → Option String)) :
    (enrich info p).is_authorized = info.is_authorized
    ∧ (enrich info p).is_online = info.is_online := by
  cases p <;> simp [enrich]

theorem mem_list_devices_flags (stdout : String)
    (props : String → Option (String → Option String)) (d : DeviceInfo)
    (hd : d ∈ list_devices stdout props) :
    d.is_authorized = d.is_online := by
  obtain ⟨line, hline, hsome⟩ := List.mem_filterMap.mp hd
  cases hp : parseLine line with
  | none => rw [hp] at hsome; simp at hsome
  | some pr =>
    obtain ⟨serial, status⟩ := pr
    rw [hp] at hsome
    have hsome2 : some (if (mkDeviceInfo serial status).is_online
        then enrich (mkDeviceInfo serial status) (props serial)
        else mkDeviceInfo serial status) = some d := hsome
    have hd2 := Option.some.inj hsome2
    subst hd2
    by_cases ho : (mkDeviceInfo serial status).is_online = true
    · rw [if_pos ho, (enrich_flags _ _).1, (enrich_flags _ _).2]
      rfl
    · rw [if_neg ho]
      rfl

/-- C10: every `DeviceInfo` a listing produces has `is_authorized` equal to
`is_online` — both are `status == "device"` for the parsed status token —
so the Authorized-Offline state is never reported, and filtering on
"authorized and online" coincides with filtering on "online". -/
theorem C10_authorized_iff_online (stdout : String)
    (props : String → Option (String → Option String)) :
    (∀ d ∈ list_devices stdout props, d.is_authorized = d.is_online)
    ∧ (∀ serial status,
        (mkDeviceInfo serial status).is_online = (status == "device")
        ∧ (mkDeviceInfo serial status).is_authorized = (status == "device"))
    ∧ ((list_devices stdout props).filter
        (fun d => d.is_authorized && d.is_online)
        = (list_devices stdout props).filter (fun d => d.is_online)) := by
  refine ⟨fun d hd => mem_list_devices_flags stdout props d hd,
    fun serial status => ⟨rfl, rfl⟩, ?_⟩
  apply List.filter_congr
  intro d hd
  rw [mem_list_devices_flags stdout props d hd, Bool.and_self]

/-- Witness for C10: the sample listing (one `device`, one `unauthorized`)
contains `serialA` flagged authorized and online, with the flags equal. -/
theorem C10_witness :
    mkDeviceInfo "serialA" "device" ∈ list_devices wStdout (fun _ => none)
    ∧ (mkDeviceInfo "serialA" "device").is_authorized =
        (mkDeviceInfo "serialA" "device").is_online := by
  have hmem : mkDeviceInfo "serialA" "device" ∈
      list_devices wStdout (fun _ => none) := by decide
  exact ⟨hmem,
    (C10_authorized_iff_online wStdout (fun _ => none)).1 _ hmem⟩

end Aria
